import Mathlib

/-!
Shallow embedding of `host/lib/rfnoc/rfnoc_tx_streamer.cpp` (UHD).

The streamer node owns five per-channel output-edge properties (scaling,
sample rate, tick rate, type/encoding, MTU), an aggregate MTU inherited
from `tx_streamer_impl`, forwarding policies, a unique id, and the stored
stream args.  Properties are `Option`-valued: `none` models an invalid
(unset) `property_t`.  C++ `double` values are modelled as exact rationals
(`ℚ`); `size_t` values as `Nat` bounded by `SIZE_MAX`.  Calls into the
device-control interface (`set_scale_factor`, `set_samp_rate`,
`set_tick_rate`) are recorded in call logs.
-/

namespace RfnocTx

/-- `SIZE_MAX`, the largest `size_t` value (64-bit). -/
def SIZE_MAX : Nat := 2 ^ 64 - 1

/-- `const std::string STREAMER_ID = "TxStreamer";` (rfnoc_tx_streamer.cpp:15). -/
def STREAMER_ID : String := "TxStreamer"

/-- `uhd::rfnoc::forwarding_policy_t` (subset of the enum used here). -/
inductive forwarding_policy_t where
  | DROP
  | ONE_TO_ONE
  | ONE_TO_ALL
  | ONE_TO_ALL_IN
  | ONE_TO_ALL_OUT
  deriving Repr, DecidableEq

/-- `uhd::stream_args_t` (the field this unit reads: `otw_format`). -/
structure stream_args_t where
  otw_format : String
  cpu_format : String
  deriving Repr, DecidableEq

/-- State of one `rfnoc_tx_streamer` instance.  The five `_*_out` vectors
hold the per-channel `property_t` values (`none` = invalid / no value).
`mtu` is the aggregate MTU state held by `tx_streamer_impl`
(`get_mtu` / `set_mtu`); `xports` records which channel has been bound to a
transport (represented by its max payload size); the three `*_calls` lists
log calls into the device-control interface in order. -/
structure rfnoc_tx_streamer where
  num_chans : Nat
  stream_args : stream_args_t
  unique_id : String
  prop_fwd_policy : forwarding_policy_t
  action_fwd_policy : forwarding_policy_t
  scaling_out : List (Option ℚ)
  samp_rate_out : List (Option ℚ)
  tick_rate_out : List (Option ℚ)
  type_out : List (Option String)
  mtu_out : List (Option Nat)
  mtu : Nat
  xports : List (Option Nat)
  scale_factor_calls : List (Nat × ℚ)
  samp_rate_calls : List ℚ
  tick_rate_calls : List ℚ
  deriving Repr, DecidableEq

namespace rfnoc_tx_streamer

/-- Read `_mtu_out[i]` (invalid / out of range reads as `none`). -/
def getMtuProp (s : rfnoc_tx_streamer) (i : Nat) : Option Nat :=
  s.mtu_out.getD i none

/-- Read `_scaling_out[i]`. -/
def getScalingProp (s : rfnoc_tx_streamer) (i : Nat) : Option ℚ :=
  s.scaling_out.getD i none

/-- Read `_samp_rate_out[i]`. -/
def getSampRateProp (s : rfnoc_tx_streamer) (i : Nat) : Option ℚ :=
  s.samp_rate_out.getD i none

/-- Read `_tick_rate_out[i]`. -/
def getTickRateProp (s : rfnoc_tx_streamer) (i : Nat) : Option ℚ :=
  s.tick_rate_out.getD i none

/-- Read `_type_out[i]`. -/
def getTypeProp (s : rfnoc_tx_streamer) (i : Nat) : Option String :=
  s.type_out.getD i none

/-- The MTU resolver lambda for channel `i` (rfnoc_tx_streamer.cpp:46-59):
if `_mtu_out[i]` is valid with value `mtu` and `mtu` is below the current
aggregate (`tx_streamer_impl::get_mtu()`), set every channel's MTU property
to `mtu` and `tx_streamer_impl::set_mtu(mtu)`; otherwise do nothing. -/
def mtu_resolver (i : Nat) (s : rfnoc_tx_streamer) : rfnoc_tx_streamer :=
  match s.getMtuProp i with
  | some mtu =>
      if mtu < s.mtu then
        { s with
          mtu_out := s.mtu_out.map (fun _ => some mtu)
          mtu := mtu }
      else s
  | none => s

/-- The scaling resolver lambda for channel `chan`
(rfnoc_tx_streamer.cpp:140-146): if `_scaling_out[chan]` is valid with
value `v`, call `set_scale_factor(chan, 32767.0 / v)`. -/
def scaling_resolver (chan : Nat) (s : rfnoc_tx_streamer) : rfnoc_tx_streamer :=
  match s.getScalingProp chan with
  | some v =>
      { s with scale_factor_calls := s.scale_factor_calls ++ [(chan, 32767 / v)] }
  | none => s

/-- The sample-rate resolver lambda for channel `chan`
(rfnoc_tx_streamer.cpp:148-154): if `_samp_rate_out[chan]` is valid, call
`set_samp_rate` with its value. -/
def samp_rate_resolver (chan : Nat) (s : rfnoc_tx_streamer) : rfnoc_tx_streamer :=
  match s.getSampRateProp chan with
  | some v => { s with samp_rate_calls := s.samp_rate_calls ++ [v] }
  | none => s

/-- The tick-rate resolver lambda for channel `chan`
(rfnoc_tx_streamer.cpp:156-162): if `_tick_rate_out[chan]` is valid, call
`set_tick_rate` with its value. -/
def tick_rate_resolver (chan : Nat) (s : rfnoc_tx_streamer) : rfnoc_tx_streamer :=
  match s.getTickRateProp chan with
  | some v => { s with tick_rate_calls := s.tick_rate_calls ++ [v] }
  | none => s

/-- Modelled from the spec: one round of the resolution engine (§4.2,
`node::resolve_props` is not in src/) restricted to the MTU resolvers,
the only resolvers whose read set can intersect an MTU dirty set.  The
round invokes, in registration order (channel order), each MTU resolver
whose single input `MTU[i]` is in the dirty set. -/
def mtuRound (s : rfnoc_tx_streamer) (dirty : List Nat) : rfnoc_tx_streamer :=
  (List.range s.num_chans).foldl
    (fun acc i => if i ∈ dirty then mtu_resolver i acc else acc) s

/-- Modelled from the spec: the properties newly dirtied by a round — the
channels whose MTU property value changed between `s` and `s'` (glossary:
a fixed point is a round in which no property changed). -/
def newlyDirty (s s' : rfnoc_tx_streamer) : List Nat :=
  (List.range s.num_chans).filter (fun i => s.getMtuProp i ≠ s'.getMtuProp i)

/-- Modelled from the spec: the convergence loop of the resolution engine
(§4.2, not in src/): run rounds until a round produces no newly-dirty
properties, under a fuel bound (the round-count fail-safe). -/
def resolve_mtu : Nat → List Nat → rfnoc_tx_streamer → rfnoc_tx_streamer
  | 0, _, s => s
  | fuel + 1, dirty, s =>
      if dirty.isEmpty then s
      else
        let s' := mtuRound s dirty
        resolve_mtu fuel (newlyDirty s s') s'

/-- Modelled from the spec: `set_property<size_t>(PROP_KEY_MTU, mtu,
{OUTPUT_EDGE, channel})` (node_t::set_property is not in src/): write the
value into `_mtu_out[channel]`, marking it valid and dirty, then run the
engine to convergence (§4.1: "updates the value, marks it valid, marks it
dirty, and triggers resolution"). -/
def set_mtu_property (channel mtuVal : Nat) (s : rfnoc_tx_streamer) : rfnoc_tx_streamer :=
  resolve_mtu (s.num_chans + 2) [channel]
    { s with mtu_out := s.mtu_out.set channel (some mtuVal) }

/-- Modelled from the spec: external `set` of `Scaling[channel]` (§4.1/§4.5):
write the value, then resolution runs the scaling resolver for that channel
(its only reader); the resolver declares no outputs, so resolution stops. -/
def set_scaling_property (channel : Nat) (v : ℚ) (s : rfnoc_tx_streamer) : rfnoc_tx_streamer :=
  scaling_resolver channel { s with scaling_out := s.scaling_out.set channel (some v) }

/-- Modelled from the spec: external `set` of `SampleRate[channel]` (§4.1/§4.5). -/
def set_samp_rate_property (channel : Nat) (v : ℚ) (s : rfnoc_tx_streamer) : rfnoc_tx_streamer :=
  samp_rate_resolver channel { s with samp_rate_out := s.samp_rate_out.set channel (some v) }

/-- Modelled from the spec: external `set` of `TickRate[channel]` (§4.1/§4.5). -/
def set_tick_rate_property (channel : Nat) (v : ℚ) (s : rfnoc_tx_streamer) : rfnoc_tx_streamer :=
  tick_rate_resolver channel { s with tick_rate_out := s.tick_rate_out.set channel (some v) }

/-- Modelled from the spec: external `set` of `Encoding[channel]`; no
resolver reads the type property (none is registered in `_register_props`),
so resolution changes nothing further. -/
def set_type_property (channel : Nat) (v : String) (s : rfnoc_tx_streamer) : rfnoc_tx_streamer :=
  { s with type_out := s.type_out.set channel (some v) }

/-- Errors surfaced by per-call operations (§7). -/
inductive StreamerError where
  | outOfRange
  deriving Repr, DecidableEq

/-- `rfnoc_tx_streamer::connect_channel` (rfnoc_tx_streamer.cpp:99-109):
`UHD_ASSERT_THROW(channel < _mtu_out.size())`, then feed the transport's
max payload size through `set_property<size_t>(PROP_KEY_MTU, ...)`, then
hand the transport to `tx_streamer_impl::connect_channel` (modelled as
recording the binding in `xports`).  The transport is represented by its
`get_max_payload_size()` value. -/
def connect_channel (s : rfnoc_tx_streamer) (channel payload : Nat) :
    Except StreamerError rfnoc_tx_streamer :=
  if channel < s.mtu_out.length then
    let s1 := set_mtu_property channel payload s
    Except.ok { s1 with xports := s1.xports.set channel (some payload) }
  else
    Except.error StreamerError.outOfRange

/-- `rfnoc_tx_streamer::get_unique_id` (rfnoc_tx_streamer.cpp:66-69). -/
def get_unique_id (s : rfnoc_tx_streamer) : String := s.unique_id

/-- `rfnoc_tx_streamer::get_num_input_ports` (rfnoc_tx_streamer.cpp:71-74). -/
def get_num_input_ports (_ : rfnoc_tx_streamer) : Nat := 0

/-- `rfnoc_tx_streamer::get_num_output_ports` (rfnoc_tx_streamer.cpp:76-79):
returns `get_num_channels()`, the channel count given to the constructor. -/
def get_num_output_ports (s : rfnoc_tx_streamer) : Nat := s.num_chans

/-- `rfnoc_tx_streamer::get_stream_args` (rfnoc_tx_streamer.cpp:81-84). -/
def get_stream_args (s : rfnoc_tx_streamer) : stream_args_t := s.stream_args

/-- Modelled from the spec: `node_t::check_topology` (base class, not in
src/; the call site's comment reads "Call base class to check that
connections are valid"): every connected input port index must be below
`get_num_input_ports()` and every connected output port index below
`get_num_output_ports()`. -/
def node_t.check_topology (s : rfnoc_tx_streamer)
    (connected_inputs connected_outputs : List Nat) : Bool :=
  connected_inputs.all (· < get_num_input_ports s) &&
    connected_outputs.all (· < get_num_output_ports s)

/-- `rfnoc_tx_streamer::check_topology` (rfnoc_tx_streamer.cpp:86-97):
false unless every channel is connected, then defer to the base class. -/
def check_topology (s : rfnoc_tx_streamer)
    (connected_inputs connected_outputs : List Nat) : Bool :=
  if connected_outputs.length ≠ get_num_output_ports s then
    false
  else
    node_t.check_topology s connected_inputs connected_outputs

/-- The constructor body minus `init_props` (rfnoc_tx_streamer.cpp:18-60):
store id and stream args, set both forwarding policies to DROP, and
create the per-channel properties (`_register_props`): scaling, sample
rate, tick rate and MTU start with no value; the type property is
constructed holding `stream_args.otw_format` (rfnoc_tx_streamer.cpp:120-121).
`ctr` is the value read from the atomic instance counter. -/
def construct (num_chans : Nat) (stream_args : stream_args_t) (ctr : Nat) :
    rfnoc_tx_streamer where
  num_chans := num_chans
  stream_args := stream_args
  unique_id := STREAMER_ID ++ "#" ++ toString ctr
  prop_fwd_policy := forwarding_policy_t.DROP
  action_fwd_policy := forwarding_policy_t.DROP
  scaling_out := List.replicate num_chans none
  samp_rate_out := List.replicate num_chans none
  tick_rate_out := List.replicate num_chans none
  type_out := List.replicate num_chans (some stream_args.otw_format)
  mtu_out := List.replicate num_chans none
  mtu := SIZE_MAX
  xports := List.replicate num_chans none
  scale_factor_calls := []
  samp_rate_calls := []
  tick_rate_calls := []

/-- Modelled from the spec: `node_accessor.init_props(this)` at the end of
the constructor (rfnoc_tx_streamer.cpp:62-63, node_accessor is not in
src/): invoke every registered resolver once; a resolver whose declared
inputs are all invalid is skipped, which the resolver bodies themselves
ensure (§4.2). -/
def init (num_chans : Nat) (stream_args : stream_args_t) (ctr : Nat) :
    rfnoc_tx_streamer :=
  let s0 := construct num_chans stream_args ctr
  let s1 := (List.range num_chans).foldl
    (fun acc i => tick_rate_resolver i (samp_rate_resolver i (scaling_resolver i acc))) s0
  (List.range num_chans).foldl (fun acc i => mtu_resolver i acc) s1

end rfnoc_tx_streamer

/-- The operations the surrounding graph can invoke on a constructed node
(property sets on each registered property, and channel attachment; the
`get_*` accessors and `check_topology` are pure and do not change state). -/
inductive Op where
  | connectChannel (channel payload : Nat)
  | setMtu (channel mtuVal : Nat)
  | setScaling (channel : Nat) (v : ℚ)
  | setSampRate (channel : Nat) (v : ℚ)
  | setTickRate (channel : Nat) (v : ℚ)
  | setType (channel : Nat) (v : String)

open rfnoc_tx_streamer in
/-- Apply one operation.  A `connect_channel` call that throws `OutOfRange`
leaves the state unchanged (the exception propagates to the caller before
any mutation). -/
def Op.step (s : rfnoc_tx_streamer) : Op → rfnoc_tx_streamer
  | Op.connectChannel c p =>
      match connect_channel s c p with
      | Except.ok s' => s'
      | Except.error _ => s
  | Op.setMtu c m => set_mtu_property c m s
  | Op.setScaling c v => set_scaling_property c v s
  | Op.setSampRate c v => set_samp_rate_property c v s
  | Op.setTickRate c v => set_tick_rate_property c v s
  | Op.setType c v => set_type_property c v s

/-- Run a sequence of operations from a state. -/
def runOps (s : rfnoc_tx_streamer) (ops : List Op) : rfnoc_tx_streamer :=
  ops.foldl Op.step s

end RfnocTx

namespace RfnocTx
open rfnoc_tx_streamer

/-- Stream arguments used by the concrete evaluation states below. -/
def demoArgs : stream_args_t := ⟨"sc16", "sc16"⟩

/-- A 2-channel node after connecting transports with payload sizes
1400 then 1500 (in that order). -/
def mtuScenarioRun : rfnoc_tx_streamer :=
  runOps (init 2 demoArgs 0) [Op.connectChannel 0 1400, Op.connectChannel 1 1500]

/-- A 2-channel state with both MTU properties valid (10 and 30) and
aggregate MTU 20, exercising both resolver branches. -/
def mtuResolverDemo : rfnoc_tx_streamer :=
  { construct 2 demoArgs 0 with mtu_out := [some 10, some 30], mtu := 20 }

/-- A single-channel node, for topology checks. -/
def topoNode : rfnoc_tx_streamer := init 1 demoArgs 0

/-- A 4-channel node whose channel-2 scaling property holds 1.0. -/
def scalingDemo : rfnoc_tx_streamer :=
  { construct 4 demoArgs 0 with scaling_out := [none, none, some 1, none] }

end RfnocTx

/-! ### Generic list helpers -/

namespace RfnocTx

theorem foldl_fixed {α β : Type _} (f : α → β → α) (l : List β) (a : α)
    (h : ∀ b, f a b = a) : l.foldl f a = a := by
  induction l with
  | nil => rfl
  | cons x xs ih => rw [List.foldl_cons, h x, ih]

theorem foldl_preserve {α β : Type _} (P : α → Prop) (f : α → β → α) (l : List β)
    (h : ∀ a b, P a → P (f a b)) : ∀ a, P a → P (l.foldl f a) := by
  induction l with
  | nil => exact fun a ha => ha
  | cons x xs ih => exact fun a ha => ih (f a x) (h a x ha)

theorem foldl_range_ite {α : Type _} (step : Nat → α → α) (c n : Nat) (a : α) :
    (List.range n).foldl (fun acc i => if i = c then step i acc else acc) a
      = if c < n then step c a else a := by
  induction n with
  | zero => simp
  | succ n ih =>
    rw [List.range_succ, List.foldl_append, ih]
    by_cases hc : c < n
    · have hne : n ≠ c := by omega
      have hlt : c < n + 1 := by omega
      simp [hc, hne, hlt]
    · by_cases he : c = n
      · subst he
        simp [hc, Nat.lt_succ_self]
      · have hne : n ≠ c := fun h => he h.symm
        have hge : ¬c < n + 1 := by omega
        simp [hc, hne, hge]

theorem getD_set_self {α : Type _} (l : List α) (c : Nat) (v d : α)
    (h : c < l.length) : (l.set c v).getD c d = v := by
  induction l generalizing c with
  | nil => simp at h
  | cons x xs ih =>
    cases c with
    | zero => rfl
    | succ c =>
      simp only [List.set, List.getD_cons_succ]
      exact ih c (by simpa using h)

theorem getD_set_ne {α : Type _} (l : List α) (c i : Nat) (v d : α)
    (h : i ≠ c) : (l.set c v).getD i d = l.getD i d := by
  induction l generalizing c i with
  | nil => rfl
  | cons x xs ih =>
    cases c with
    | zero =>
      cases i with
      | zero => exact absurd rfl h
      | succ i => rfl
    | succ c =>
      cases i with
      | zero => rfl
      | succ i =>
        simp only [List.set, List.getD_cons_succ]
        exact ih c i (fun he => h (by rw [he]))

theorem getD_map_const {α : Type _} (l : List α) (m : Nat) (i : Nat) :
    (l.map (fun _ => some m)).getD i none = if i < l.length then some m else none := by
  induction l generalizing i with
  | nil => simp
  | cons x xs ih =>
    cases i with
    | zero => simp
    | succ i =>
      simp only [List.map_cons, List.getD_cons_succ, ih, List.length_cons]
      by_cases h : i < xs.length
      · simp [h, Nat.succ_lt_succ h]
      · simp [h, fun hh => h (Nat.lt_of_succ_lt_succ hh)]

theorem map_const_set {α β : Type _} (l : List α) (c : Nat) (v : α) (b : β) :
    (l.set c v).map (fun _ => b) = l.map (fun _ => b) := by
  induction l generalizing c with
  | nil => rfl
  | cons x xs ih =>
    cases c with
    | zero => rfl
    | succ c => simp only [List.set, List.map_cons, ih]

theorem getD_replicate {α : Type _} (n i : Nat) (a : α) :
    (List.replicate n a).getD i a = a := by
  induction n generalizing i with
  | zero => rfl
  | succ n ih =>
    cases i with
    | zero => rfl
    | succ i => exact ih i

theorem getD_replicate_lt {α : Type _} (n i : Nat) (a d : α) (h : i < n) :
    (List.replicate n a).getD i d = a := by
  induction n generalizing i with
  | zero => omega
  | succ n ih =>
    cases i with
    | zero => rfl
    | succ i => exact ih i (by omega)

theorem set_eq_self_of_length_le {α : Type _} (l : List α) (c : Nat) (v : α)
    (h : l.length ≤ c) : l.set c v = l := by
  induction l generalizing c with
  | nil => rfl
  | cons x xs ih =>
    cases c with
    | zero => simp at h
    | succ c => simp only [List.set]; rw [ih c (by simpa using h)]

end RfnocTx

/-! ### Resolution-engine lemmas -/

namespace RfnocTx
namespace rfnoc_tx_streamer

theorem mtu_resolver_noop (i : Nat) (s : rfnoc_tx_streamer)
    (h : ∀ m, s.getMtuProp i = some m → s.mtu ≤ m) : mtu_resolver i s = s := by
  unfold mtu_resolver
  cases hm : s.getMtuProp i with
  | none => rfl
  | some m => simp [Nat.not_lt.mpr (h m hm)]

theorem mtuRound_single (s : rfnoc_tx_streamer) (c : Nat) :
    mtuRound s [c] = if c < s.num_chans then mtu_resolver c s else s := by
  unfold mtuRound
  simp only [List.mem_singleton]
  exact foldl_range_ite mtu_resolver c s.num_chans s

theorem mtuRound_fixed (s : rfnoc_tx_streamer) (dirty : List Nat)
    (h : ∀ i, mtu_resolver i s = s) : mtuRound s dirty = s := by
  unfold mtuRound
  apply foldl_fixed
  intro i
  by_cases hi : i ∈ dirty <;> simp [hi, h i]

theorem newlyDirty_self (s : rfnoc_tx_streamer) : newlyDirty s s = [] := by
  unfold newlyDirty
  simp

theorem resolve_mtu_nil (fuel : Nat) (s : rfnoc_tx_streamer) :
    resolve_mtu fuel [] s = s := by
  cases fuel with
  | zero => rfl
  | succ fuel => rfl

theorem resolve_mtu_cons (fuel : Nat) (d : Nat) (ds : List Nat) (s : rfnoc_tx_streamer) :
    resolve_mtu (fuel + 1) (d :: ds) s
      = resolve_mtu fuel (newlyDirty s (mtuRound s (d :: ds))) (mtuRound s (d :: ds)) := rfl

theorem resolve_mtu_fixed (fuel : Nat) (dirty : List Nat) (s : rfnoc_tx_streamer)
    (h : ∀ i, mtu_resolver i s = s) : resolve_mtu fuel dirty s = s := by
  induction fuel generalizing dirty with
  | zero => rfl
  | succ fuel ih =>
    cases dirty with
    | nil => rfl
    | cons d ds =>
      rw [resolve_mtu_cons, mtuRound_fixed s (d :: ds) h, newlyDirty_self]
      exact resolve_mtu_nil fuel s

/-- All per-channel MTU resolvers are no-ops on a state whose MTU properties
all hold the aggregate value. -/
theorem mtu_resolver_noop_of_uniform (l : List (Option Nat)) (m : Nat)
    (s : rfnoc_tx_streamer)
    (hout : s.mtu_out = l.map (fun _ => some m)) (hmtu : s.mtu = m) :
    ∀ i, mtu_resolver i s = s := by
  intro i
  apply mtu_resolver_noop
  intro m2 hm2
  rw [getMtuProp, hout, getD_map_const] at hm2
  by_cases hi : i < l.length
  · rw [if_pos hi] at hm2
    cases hm2
    exact Nat.le_of_eq hmtu
  · rw [if_neg hi] at hm2
    cases hm2

/-- Collapse of the convergence loop after an external MTU set: the engine
reaches its fixed point after the written channel's resolver runs (and, if
that resolver fired, one further all-no-op round). -/
theorem set_mtu_property_eq (s : rfnoc_tx_streamer) (c m : Nat)
    (hc : c < s.num_chans) (hlen : s.mtu_out.length = s.num_chans) :
    set_mtu_property c m s
      = mtu_resolver c { s with mtu_out := s.mtu_out.set c (some m) } := by
  have hget : getMtuProp { s with mtu_out := s.mtu_out.set c (some m) } c = some m := by
    unfold getMtuProp
    exact getD_set_self s.mtu_out c (some m) none (hlen ▸ hc)
  unfold set_mtu_property
  rw [resolve_mtu_cons, mtuRound_single]
  simp only [show ({ s with mtu_out := s.mtu_out.set c (some m) } : rfnoc_tx_streamer).num_chans
      = s.num_chans from rfl, if_pos hc]
  by_cases hfire : m < s.mtu
  · have hr : mtu_resolver c { s with mtu_out := s.mtu_out.set c (some m) }
        = { s with mtu_out := (s.mtu_out.set c (some m)).map (fun _ => some m), mtu := m } := by
      unfold mtu_resolver
      rw [hget]
      simp only [hfire, if_pos]
    rw [hr]
    exact resolve_mtu_fixed _ _ _
      (mtu_resolver_noop_of_uniform (s.mtu_out.set c (some m)) m _ rfl rfl)
  · have hr : mtu_resolver c { s with mtu_out := s.mtu_out.set c (some m) }
        = { s with mtu_out := s.mtu_out.set c (some m) } := by
      unfold mtu_resolver
      rw [hget]
      simp only [hfire, if_neg, ite_false]
    rw [hr, newlyDirty_self]
    exact resolve_mtu_nil _ _

/-- If the written value undercuts the aggregate, the resolver propagates it
to every channel and to the aggregate. -/
theorem set_mtu_property_fire (s : rfnoc_tx_streamer) (c m : Nat)
    (hc : c < s.num_chans) (hlen : s.mtu_out.length = s.num_chans)
    (hm : m < s.mtu) :
    set_mtu_property c m s
      = { s with mtu_out := s.mtu_out.map (fun _ => some m), mtu := m } := by
  rw [set_mtu_property_eq s c m hc hlen]
  have hget : getMtuProp { s with mtu_out := s.mtu_out.set c (some m) } c = some m := by
    unfold getMtuProp
    exact getD_set_self s.mtu_out c (some m) none (hlen ▸ hc)
  unfold mtu_resolver
  rw [hget]
  simp only [hm, if_pos]
  rw [map_const_set]

/-- If the written value does not undercut the aggregate, the resolver is a
no-op and only the written channel's property changes. -/
theorem set_mtu_property_no_fire (s : rfnoc_tx_streamer) (c m : Nat)
    (hc : c < s.num_chans) (hlen : s.mtu_out.length = s.num_chans)
    (hm : s.mtu ≤ m) :
    set_mtu_property c m s = { s with mtu_out := s.mtu_out.set c (some m) } := by
  rw [set_mtu_property_eq s c m hc hlen]
  have hget : getMtuProp { s with mtu_out := s.mtu_out.set c (some m) } c = some m := by
    unfold getMtuProp
    exact getD_set_self s.mtu_out c (some m) none (hlen ▸ hc)
  unfold mtu_resolver
  rw [hget]
  simp only [Nat.not_lt.mpr hm, ite_false]

/-- Setting the MTU property of a nonexistent channel changes nothing. -/
theorem set_mtu_property_oob (s : rfnoc_tx_streamer) (c m : Nat)
    (hc : s.num_chans ≤ c) (hlen : s.mtu_out.length = s.num_chans) :
    set_mtu_property c m s = s := by
  have hset : s.mtu_out.set c (some m) = s.mtu_out :=
    set_eq_self_of_length_le s.mtu_out c (some m) (hlen ▸ hc)
  have hs1 : ({ s with mtu_out := s.mtu_out.set c (some m) } : rfnoc_tx_streamer) = s := by
    rw [hset]
  unfold set_mtu_property
  rw [hs1, resolve_mtu_cons, mtuRound_single, if_neg (Nat.not_lt.mpr hc), newlyDirty_self]
  exact resolve_mtu_nil _ _

end rfnoc_tx_streamer
end RfnocTx

/-! ### Frame conditions and well-formedness -/

namespace RfnocTx
namespace rfnoc_tx_streamer

/-- Fields no operation ever changes (plus preservation of the MTU property
vector's length), relating a state to any state evolved from it. -/
def Frame (s t : rfnoc_tx_streamer) : Prop :=
  t.num_chans = s.num_chans ∧
  t.stream_args = s.stream_args ∧
  t.unique_id = s.unique_id ∧
  t.prop_fwd_policy = s.prop_fwd_policy ∧
  t.action_fwd_policy = s.action_fwd_policy ∧
  t.mtu_out.length = s.mtu_out.length

theorem Frame.refl (s : rfnoc_tx_streamer) : Frame s s :=
  ⟨rfl, rfl, rfl, rfl, rfl, rfl⟩

theorem Frame.trans {s t u : rfnoc_tx_streamer} (h1 : Frame s t) (h2 : Frame t u) :
    Frame s u := by
  obtain ⟨a1, b1, c1, d1, e1, f1⟩ := h1
  obtain ⟨a2, b2, c2, d2, e2, f2⟩ := h2
  exact ⟨a2.trans a1, b2.trans b1, c2.trans c1, d2.trans d1, e2.trans e1, f2.trans f1⟩

theorem mtu_resolver_frame (i : Nat) (s : rfnoc_tx_streamer) :
    Frame s (mtu_resolver i s) := by
  unfold mtu_resolver
  cases s.getMtuProp i with
  | none => exact Frame.refl s
  | some m =>
    by_cases h : m < s.mtu
    · simp only [h, if_pos]
      exact ⟨rfl, rfl, rfl, rfl, rfl, List.length_map _ _⟩
    · simp only [h, ite_false]
      exact Frame.refl s

theorem scaling_resolver_frame (i : Nat) (s : rfnoc_tx_streamer) :
    Frame s (scaling_resolver i s) := by
  unfold scaling_resolver
  cases s.getScalingProp i with
  | none => exact Frame.refl s
  | some v => exact ⟨rfl, rfl, rfl, rfl, rfl, rfl⟩

theorem samp_rate_resolver_frame (i : Nat) (s : rfnoc_tx_streamer) :
    Frame s (samp_rate_resolver i s) := by
  unfold samp_rate_resolver
  cases s.getSampRateProp i with
  | none => exact Frame.refl s
  | some v => exact ⟨rfl, rfl, rfl, rfl, rfl, rfl⟩

theorem tick_rate_resolver_frame (i : Nat) (s : rfnoc_tx_streamer) :
    Frame s (tick_rate_resolver i s) := by
  unfold tick_rate_resolver
  cases s.getTickRateProp i with
  | none => exact Frame.refl s
  | some v => exact ⟨rfl, rfl, rfl, rfl, rfl, rfl⟩

theorem mtuRound_frame (s : rfnoc_tx_streamer) (dirty : List Nat) :
    Frame s (mtuRound s dirty) := by
  unfold mtuRound
  apply foldl_preserve (fun t => Frame s t)
  · intro a i ha
    by_cases hi : i ∈ dirty
    · simp only [hi, if_pos]
      exact ha.trans (mtu_resolver_frame i a)
    · simpa [hi] using ha
  · exact Frame.refl s

theorem resolve_mtu_frame (fuel : Nat) (dirty : List Nat) (s : rfnoc_tx_streamer) :
    Frame s (resolve_mtu fuel dirty s) := by
  induction fuel generalizing dirty s with
  | zero => exact Frame.refl s
  | succ fuel ih =>
    cases dirty with
    | nil => exact Frame.refl s
    | cons d ds =>
      rw [resolve_mtu_cons]
      exact (mtuRound_frame s (d :: ds)).trans (ih _ (mtuRound s (d :: ds)))

theorem set_mtu_property_frame (c m : Nat) (s : rfnoc_tx_streamer) :
    Frame s (set_mtu_property c m s) := by
  unfold set_mtu_property
  refine Frame.trans ?_ (resolve_mtu_frame _ _ _)
  exact ⟨rfl, rfl, rfl, rfl, rfl, List.length_set _ _ _⟩

theorem step_frame (s : rfnoc_tx_streamer) (op : Op) : Frame s (Op.step s op) := by
  cases op with
  | connectChannel c p =>
    unfold Op.step connect_channel
    by_cases h : c < s.mtu_out.length
    · simp only [h, if_pos]
      refine Frame.trans (set_mtu_property_frame c p s) ?_
      exact ⟨rfl, rfl, rfl, rfl, rfl, rfl⟩
    · simp only [h, ite_false]
      exact Frame.refl s
  | setMtu c m => exact set_mtu_property_frame c m s
  | setScaling c v =>
    refine Frame.trans (t := { s with scaling_out := s.scaling_out.set c (some v) })
      ⟨rfl, rfl, rfl, rfl, rfl, rfl⟩ (scaling_resolver_frame c _)
  | setSampRate c v =>
    refine Frame.trans (t := { s with samp_rate_out := s.samp_rate_out.set c (some v) })
      ⟨rfl, rfl, rfl, rfl, rfl, rfl⟩ (samp_rate_resolver_frame c _)
  | setTickRate c v =>
    refine Frame.trans (t := { s with tick_rate_out := s.tick_rate_out.set c (some v) })
      ⟨rfl, rfl, rfl, rfl, rfl, rfl⟩ (tick_rate_resolver_frame c _)
  | setType c v => exact ⟨rfl, rfl, rfl, rfl, rfl, rfl⟩

theorem runOps_frame (ops : List Op) (s : rfnoc_tx_streamer) :
    Frame s (runOps s ops) := by
  unfold runOps
  apply foldl_preserve (fun t => Frame s t)
  · exact fun a op ha => ha.trans (step_frame a op)
  · exact Frame.refl s

end rfnoc_tx_streamer
end RfnocTx

/-! ### Well-formedness, the aggregate-MTU invariant, and initial state -/

namespace RfnocTx
namespace rfnoc_tx_streamer

/-- The MTU property vector has one slot per channel. -/
abbrev WF (s : rfnoc_tx_streamer) : Prop := s.mtu_out.length = s.num_chans

/-- The aggregate MTU never exceeds any channel's valid MTU property. -/
abbrev Inv (s : rfnoc_tx_streamer) : Prop :=
  ∀ i m, s.getMtuProp i = some m → s.mtu ≤ m

theorem inv_set_mtu (s : rfnoc_tx_streamer) (c p : Nat)
    (hWF : WF s) (hInv : Inv s) : Inv (set_mtu_property c p s) := by
  by_cases hc : c < s.num_chans
  · by_cases hp : p < s.mtu
    · rw [set_mtu_property_fire s c p hc hWF hp]
      intro i m hm
      simp only [getMtuProp] at hm
      rw [getD_map_const] at hm
      by_cases hi : i < s.mtu_out.length
      · rw [if_pos hi] at hm
        cases hm
        exact Nat.le_refl _
      · rw [if_neg hi] at hm
        cases hm
    · rw [set_mtu_property_no_fire s c p hc hWF (Nat.not_lt.mp hp)]
      intro i m hm
      simp only [getMtuProp] at hm
      by_cases hic : i = c
      · subst hic
        rw [getD_set_self _ _ _ _ (hWF ▸ hc)] at hm
        cases hm
        exact Nat.not_lt.mp hp
      · rw [getD_set_ne _ _ _ _ _ hic] at hm
        exact hInv i m hm
  · rw [set_mtu_property_oob s c p (Nat.not_lt.mp hc) hWF]
    exact hInv

theorem set_scaling_mtu_fields (c : Nat) (v : ℚ) (s : rfnoc_tx_streamer) :
    (set_scaling_property c v s).mtu_out = s.mtu_out ∧
      (set_scaling_property c v s).mtu = s.mtu := by
  unfold set_scaling_property scaling_resolver
  split <;> exact ⟨rfl, rfl⟩

theorem set_samp_rate_mtu_fields (c : Nat) (v : ℚ) (s : rfnoc_tx_streamer) :
    (set_samp_rate_property c v s).mtu_out = s.mtu_out ∧
      (set_samp_rate_property c v s).mtu = s.mtu := by
  unfold set_samp_rate_property samp_rate_resolver
  split <;> exact ⟨rfl, rfl⟩

theorem set_tick_rate_mtu_fields (c : Nat) (v : ℚ) (s : rfnoc_tx_streamer) :
    (set_tick_rate_property c v s).mtu_out = s.mtu_out ∧
      (set_tick_rate_property c v s).mtu = s.mtu := by
  unfold set_tick_rate_property tick_rate_resolver
  split <;> exact ⟨rfl, rfl⟩

theorem connect_channel_ok (s : rfnoc_tx_streamer) (c p : Nat)
    (h : c < s.mtu_out.length) :
    connect_channel s c p = Except.ok
      { set_mtu_property c p s with
        xports := (set_mtu_property c p s).xports.set c (some p) } := by
  unfold connect_channel
  rw [if_pos h]

theorem connect_channel_err (s : rfnoc_tx_streamer) (c p : Nat)
    (h : s.mtu_out.length ≤ c) :
    connect_channel s c p = Except.error StreamerError.outOfRange := by
  unfold connect_channel
  rw [if_neg (Nat.not_lt.mpr h)]

theorem step_connect_ok (s : rfnoc_tx_streamer) (c p : Nat)
    (h : c < s.mtu_out.length) :
    Op.step s (Op.connectChannel c p)
      = { set_mtu_property c p s with
          xports := (set_mtu_property c p s).xports.set c (some p) } := by
  simp only [Op.step]
  rw [connect_channel_ok s c p h]

theorem step_connect_err (s : rfnoc_tx_streamer) (c p : Nat)
    (h : s.mtu_out.length ≤ c) :
    Op.step s (Op.connectChannel c p) = s := by
  simp only [Op.step]
  rw [connect_channel_err s c p h]

theorem step_inv (s : rfnoc_tx_streamer) (op : Op)
    (hWF : WF s) (hInv : Inv s) : Inv (Op.step s op) := by
  cases op with
  | connectChannel c p =>
    by_cases h : c < s.mtu_out.length
    · rw [step_connect_ok s c p h]
      intro i m hm
      exact inv_set_mtu s c p hWF hInv i m hm
    · rw [step_connect_err s c p (Nat.not_lt.mp h)]
      exact hInv
  | setMtu c m => exact inv_set_mtu s c m hWF hInv
  | setScaling c v =>
    intro i m hm
    obtain ⟨h1, h2⟩ := set_scaling_mtu_fields c v s
    simp only [Op.step, getMtuProp, h1, h2] at hm ⊢
    exact hInv i m hm
  | setSampRate c v =>
    intro i m hm
    obtain ⟨h1, h2⟩ := set_samp_rate_mtu_fields c v s
    simp only [Op.step, getMtuProp, h1, h2] at hm ⊢
    exact hInv i m hm
  | setTickRate c v =>
    intro i m hm
    obtain ⟨h1, h2⟩ := set_tick_rate_mtu_fields c v s
    simp only [Op.step, getMtuProp, h1, h2] at hm ⊢
    exact hInv i m hm
  | setType c v =>
    intro i m hm
    exact hInv i m hm

theorem runOps_WF_inv (ops : List Op) (s : rfnoc_tx_streamer)
    (hWF : WF s) (hInv : Inv s) : WF (runOps s ops) ∧ Inv (runOps s ops) := by
  unfold runOps
  apply foldl_preserve (fun t => WF t ∧ Inv t)
  · rintro a op ⟨hW, hI⟩
    refine ⟨?_, step_inv a op hW hI⟩
    have hf := step_frame a op
    show (Op.step a op).mtu_out.length = (Op.step a op).num_chans
    rw [hf.2.2.2.2.2, hf.1]
    exact hW
  · exact ⟨hWF, hInv⟩

theorem init_eq_construct (n : Nat) (args : stream_args_t) (ctr : Nat) :
    init n args ctr = construct n args ctr := by
  unfold init
  have hsc : ∀ i, scaling_resolver i (construct n args ctr) = construct n args ctr := by
    intro i
    have h : (construct n args ctr).getScalingProp i = none := getD_replicate n i none
    unfold scaling_resolver
    rw [h]
  have hsr : ∀ i, samp_rate_resolver i (construct n args ctr) = construct n args ctr := by
    intro i
    have h : (construct n args ctr).getSampRateProp i = none := getD_replicate n i none
    unfold samp_rate_resolver
    rw [h]
  have htr : ∀ i, tick_rate_resolver i (construct n args ctr) = construct n args ctr := by
    intro i
    have h : (construct n args ctr).getTickRateProp i = none := getD_replicate n i none
    unfold tick_rate_resolver
    rw [h]
  have hmr : ∀ i, mtu_resolver i (construct n args ctr) = construct n args ctr := by
    intro i
    have h : (construct n args ctr).getMtuProp i = none := getD_replicate n i none
    unfold mtu_resolver
    rw [h]
  have h1 : (List.range n).foldl
      (fun acc i => tick_rate_resolver i (samp_rate_resolver i (scaling_resolver i acc)))
      (construct n args ctr) = construct n args ctr :=
    foldl_fixed _ _ _ (fun i => by rw [hsc i, hsr i, htr i])
  dsimp only
  rw [h1]
  exact foldl_fixed _ _ _ hmr

theorem init_WF (n : Nat) (args : stream_args_t) (ctr : Nat) :
    WF (init n args ctr) := by
  rw [init_eq_construct]
  exact List.length_replicate n none

theorem init_inv (n : Nat) (args : stream_args_t) (ctr : Nat) :
    Inv (init n args ctr) := by
  intro i m hm
  rw [init_eq_construct] at hm
  have h : (construct n args ctr).getMtuProp i = none := getD_replicate n i none
  rw [h] at hm
  cases hm

end rfnoc_tx_streamer
end RfnocTx

/-! ### Aggregate MTU under channel attachment -/

namespace RfnocTx
namespace rfnoc_tx_streamer

theorem step_connect_mtu (s : rfnoc_tx_streamer) (c p : Nat)
    (hWF : WF s) (hc : c < s.num_chans) :
    (Op.step s (Op.connectChannel c p)).mtu = min s.mtu p := by
  have hlen : c < s.mtu_out.length := by rw [hWF]; exact hc
  rw [step_connect_ok s c p hlen]
  show (set_mtu_property c p s).mtu = min s.mtu p
  by_cases hp : p < s.mtu
  · rw [set_mtu_property_fire s c p hc hWF hp]
    exact (Nat.min_eq_right (Nat.le_of_lt hp)).symm
  · rw [set_mtu_property_no_fire s c p hc hWF (Nat.not_lt.mp hp)]
    exact (Nat.min_eq_left (Nat.not_lt.mp hp)).symm

theorem runOps_connect_mtu (ps : List (Nat × Nat)) :
    ∀ s : rfnoc_tx_streamer, WF s → (∀ x ∈ ps, x.1 < s.num_chans) →
    (runOps s (ps.map fun x => Op.connectChannel x.1 x.2)).mtu
      = ps.foldl (fun a x => min a x.2) s.mtu := by
  induction ps with
  | nil => intro s _ _; rfl
  | cons x t ih =>
    intro s hWF hch
    have hf := step_frame s (Op.connectChannel x.1 x.2)
    have hWF2 : WF (Op.step s (Op.connectChannel x.1 x.2)) := by
      show (Op.step s (Op.connectChannel x.1 x.2)).mtu_out.length
          = (Op.step s (Op.connectChannel x.1 x.2)).num_chans
      rw [hf.2.2.2.2.2, hf.1]
      exact hWF
    have hch2 : ∀ y ∈ t, y.1 < (Op.step s (Op.connectChannel x.1 x.2)).num_chans := by
      intro y hy
      rw [hf.1]
      exact hch y (List.mem_cons_of_mem x hy)
    show (runOps (Op.step s (Op.connectChannel x.1 x.2))
        (t.map fun y => Op.connectChannel y.1 y.2)).mtu = _
    rw [ih _ hWF2 hch2, step_connect_mtu s x.1 x.2 hWF (hch x (List.mem_cons_self x t))]
    rfl

end rfnoc_tx_streamer
end RfnocTx

namespace RfnocTx
namespace rfnoc_tx_streamer

theorem construct_num_chans (n : Nat) (args : stream_args_t) (ctr : Nat) :
    (construct n args ctr).num_chans = n := rfl

theorem construct_mtu (n : Nat) (args : stream_args_t) (ctr : Nat) :
    (construct n args ctr).mtu = SIZE_MAX := rfl

theorem construct_policies (n : Nat) (args : stream_args_t) (ctr : Nat) :
    (construct n args ctr).prop_fwd_policy = forwarding_policy_t.DROP ∧
    (construct n args ctr).action_fwd_policy = forwarding_policy_t.DROP := ⟨rfl, rfl⟩

theorem construct_unique_id (n : Nat) (args : stream_args_t) (ctr : Nat) :
    (construct n args ctr).unique_id = STREAMER_ID ++ "#" ++ toString ctr := rfl

theorem construct_stream_args (n : Nat) (args : stream_args_t) (ctr : Nat) :
    (construct n args ctr).stream_args = args := rfl

end rfnoc_tx_streamer
end RfnocTx

/-! ### Claim theorems -/

namespace RfnocTx
open rfnoc_tx_streamer

/-- C1 (counterexample): a 2-channel node attaches transports with payload
sizes 1400 then 1500.  The aggregate MTU ends at min(1400, 1500) = 1400, but
channel 1's MTU property ends at 1500, not at the minimum — the claim that
every channel's MTU property equals the minimum is false. -/
theorem connect_channel_mtu_claim_false :
    mtuScenarioRun.mtu = 1400 ∧
    mtuScenarioRun.getMtuProp 1 = some 1500 ∧
    mtuScenarioRun.getMtuProp 1 ≠ some 1400 := by
  decide

/-- C1 (amended): after any nonempty sequence of successful `connect_channel`
calls with payload sizes `p_1..p_n` (each a `size_t` value), the aggregate
MTU equals `min(p_1..p_n)`, and every channel's valid MTU property is at
least that minimum (a channel attached with a payload not below the
then-current aggregate keeps its own larger value). -/
theorem connect_channel_aggregate_min (n : Nat) (args : stream_args_t) (ctr : Nat)
    (ps : List (Nat × Nat)) (hne : ps ≠ [])
    (hch : ∀ x ∈ ps, x.1 < n) (hsz : ∀ x ∈ ps, x.2 ≤ SIZE_MAX) :
    (ps.map Prod.snd).min?
        = some (runOps (init n args ctr) (ps.map fun x => Op.connectChannel x.1 x.2)).mtu
      ∧ ∀ i m,
        (runOps (init n args ctr) (ps.map fun x => Op.connectChannel x.1 x.2)).getMtuProp i
            = some m →
        (runOps (init n args ctr) (ps.map fun x => Op.connectChannel x.1 x.2)).mtu ≤ m := by
  constructor
  · have hch2 : ∀ x ∈ ps, x.1 < (init n args ctr).num_chans := by
      intro x hx
      have hn : (init n args ctr).num_chans = n := by
        rw [init_eq_construct, construct_num_chans]
      rw [hn]
      exact hch x hx
    rw [runOps_connect_mtu ps (init n args ctr) (init_WF n args ctr) hch2]
    have hmtu : (init n args ctr).mtu = SIZE_MAX := by
      rw [init_eq_construct, construct_mtu]
    rw [hmtu]
    cases ps with
    | nil => exact absurd rfl hne
    | cons x t =>
      have h1 : ((x :: t).map Prod.snd).min? = some ((t.map Prod.snd).foldl min x.2) := rfl
      have h2 : (t.map Prod.snd).foldl min x.2 = t.foldl (fun a y => min a y.2) x.2 := by
        rw [List.foldl_map]
      have h3 : (x :: t).foldl (fun a y => min a y.2) SIZE_MAX
          = t.foldl (fun a y => min a y.2) (min SIZE_MAX x.2) := rfl
      rw [h1, h2, h3, Nat.min_eq_right (hsz x (List.mem_cons_self x t))]
  · exact fun i m hm =>
      (runOps_WF_inv _ _ (init_WF n args ctr) (init_inv n args ctr)).2 i m hm

/-- C1 witness: the spec's 4-channel scenario with payload sizes
[1500, 1400, 1500, 1472]. -/
theorem connect_channel_aggregate_min_witness :
    (([(0, 1500), (1, 1400), (2, 1500), (3, 1472)] : List (Nat × Nat)) ≠ []) ∧
    (∀ x ∈ ([(0, 1500), (1, 1400), (2, 1500), (3, 1472)] : List (Nat × Nat)), x.1 < 4) ∧
    (∀ x ∈ ([(0, 1500), (1, 1400), (2, 1500), (3, 1472)] : List (Nat × Nat)), x.2 ≤ SIZE_MAX) ∧
    ((([(0, 1500), (1, 1400), (2, 1500), (3, 1472)] : List (Nat × Nat)).map Prod.snd).min?
        = some (runOps (init 4 demoArgs 0)
            (([(0, 1500), (1, 1400), (2, 1500), (3, 1472)] : List (Nat × Nat)).map
              fun x => Op.connectChannel x.1 x.2)).mtu
      ∧ ∀ i m,
        (runOps (init 4 demoArgs 0)
            (([(0, 1500), (1, 1400), (2, 1500), (3, 1472)] : List (Nat × Nat)).map
              fun x => Op.connectChannel x.1 x.2)).getMtuProp i = some m →
        (runOps (init 4 demoArgs 0)
            (([(0, 1500), (1, 1400), (2, 1500), (3, 1472)] : List (Nat × Nat)).map
              fun x => Op.connectChannel x.1 x.2)).mtu ≤ m) :=
  ⟨by decide, by decide, by decide,
    connect_channel_aggregate_min 4 demoArgs 0 _ (by decide) (by decide) (by decide)⟩

/-- C2: when the MTU resolver for channel `i` runs with `MTU[i]` valid and
holding `m`: if `m` is below the aggregate, it writes `m` into every
channel's MTU property and sets the aggregate to `m`; otherwise it changes
nothing (the aggregate never grows). -/
theorem mtu_resolver_branches (s : rfnoc_tx_streamer) (i m : Nat)
    (hm : s.getMtuProp i = some m) :
    (m < s.mtu →
      (mtu_resolver i s).mtu = m ∧
      ∀ c, c < s.mtu_out.length → (mtu_resolver i s).getMtuProp c = some m) ∧
    (s.mtu ≤ m → mtu_resolver i s = s) := by
  constructor
  · intro hlt
    simp only [mtu_resolver, hm]
    rw [if_pos hlt]
    refine ⟨rfl, ?_⟩
    intro c hc
    simp only [getMtuProp]
    rw [getD_map_const, if_pos hc]
  · intro hge
    exact mtu_resolver_noop i s (fun m2 hm2 => by rw [hm] at hm2; cases hm2; exact hge)

/-- C2 witness: a 2-channel state with MTU properties 10 and 30 and
aggregate 20; run the channel-0 resolver (10 < 20 fires, 20 ≤ 10 is the
vacuous branch). -/
theorem mtu_resolver_branches_witness :
    mtuResolverDemo.getMtuProp 0 = some 10 ∧
    ((10 < mtuResolverDemo.mtu →
        (mtu_resolver 0 mtuResolverDemo).mtu = 10 ∧
        ∀ c, c < mtuResolverDemo.mtu_out.length →
          (mtu_resolver 0 mtuResolverDemo).getMtuProp c = some 10) ∧
      (mtuResolverDemo.mtu ≤ 10 → mtu_resolver 0 mtuResolverDemo = mtuResolverDemo)) :=
  ⟨by decide, mtu_resolver_branches mtuResolverDemo 0 10 (by decide)⟩

/-- C3 (counterexample): a 1-channel node with one connected output edge of
port index 1: `connected_outputs.size() == channel_count` holds, yet
`check_topology` returns false (the base-class validity check rejects the
out-of-range port), so the claimed equivalence with the size test alone is
false. -/
theorem check_topology_claim_false :
    ([1] : List Nat).length = topoNode.num_chans ∧
    check_topology topoNode [] [1] = false := by
  decide

/-- C3 (amended): `check_topology` returns true iff the number of connected
outputs equals the channel count, every connected output port index is below
the channel count, and there are no connected inputs (the node has zero
input ports). -/
theorem check_topology_size_and_validity (s : rfnoc_tx_streamer)
    (connected_inputs connected_outputs : List Nat) :
    check_topology s connected_inputs connected_outputs = true ↔
      (connected_outputs.length = s.num_chans ∧ connected_inputs = [] ∧
        ∀ o ∈ connected_outputs, o < s.num_chans) := by
  unfold check_topology node_t.check_topology get_num_input_ports get_num_output_ports
  by_cases h : connected_outputs.length = s.num_chans
  · simp [h, List.all_eq_true, List.eq_nil_iff_forall_not_mem]
  · simp [h]

/-- C4: on any reachable state of an `n`-channel node, `connect_channel`
with a channel index at or beyond `n` throws `OutOfRange` and mutates no
state. -/
theorem connect_channel_out_of_range (n : Nat) (args : stream_args_t) (ctr : Nat)
    (ops : List Op) (c p : Nat) (hc : n ≤ c) :
    connect_channel (runOps (init n args ctr) ops) c p
        = Except.error StreamerError.outOfRange ∧
    Op.step (runOps (init n args ctr) ops) (Op.connectChannel c p)
        = runOps (init n args ctr) ops := by
  have hWF := (runOps_WF_inv ops _ (init_WF n args ctr) (init_inv n args ctr)).1
  have hnc : (runOps (init n args ctr) ops).num_chans = n := by
    rw [(runOps_frame ops _).1, init_eq_construct, construct_num_chans]
  have hlen : (runOps (init n args ctr) ops).mtu_out.length ≤ c := by
    rw [hWF, hnc]
    exact hc
  exact ⟨connect_channel_err _ _ _ hlen, step_connect_err _ _ _ hlen⟩

/-- C4 witness: `connect_channel(2, ...)` on a freshly constructed 2-channel
node (the spec's scenario `connect_channel(channel_count, transport)`). -/
theorem connect_channel_out_of_range_witness :
    2 ≤ 2 ∧
    (connect_channel (runOps (init 2 demoArgs 0) []) 2 100
        = Except.error StreamerError.outOfRange ∧
      Op.step (runOps (init 2 demoArgs 0) []) (Op.connectChannel 2 100)
        = runOps (init 2 demoArgs 0) []) :=
  ⟨by decide, connect_channel_out_of_range 2 demoArgs 0 [] 2 100 (by decide)⟩

/-- C5: when the scaling resolver for channel `chan` runs with
`Scaling[chan]` valid and holding `v`, the only state change is one appended
device-control call `set_scale_factor(chan, 32767 / v)` — no other
channel's scale factor and no property is touched. -/
theorem scaling_resolver_single_call (s : rfnoc_tx_streamer) (chan : Nat) (v : ℚ)
    (hv : s.getScalingProp chan = some v) :
    scaling_resolver chan s
      = { s with scale_factor_calls := s.scale_factor_calls ++ [(chan, 32767 / v)] } := by
  unfold scaling_resolver
  rw [hv]

/-- C5 witness: the spec's scenario — `Scaling[2] = 1.0` on a 4-channel node
with an empty call log yields exactly the call `set_scale_factor(2, 32767)`. -/
theorem scaling_resolver_single_call_witness :
    scalingDemo.getScalingProp 2 = some 1 ∧
    scaling_resolver 2 scalingDemo
        = { scalingDemo with
            scale_factor_calls := scalingDemo.scale_factor_calls ++ [(2, 32767 / 1)] } ∧
    (scaling_resolver 2 scalingDemo).scale_factor_calls = [(2, (32767 : ℚ))] :=
  ⟨by decide, scaling_resolver_single_call scalingDemo 2 1 (by decide), by
    rw [scaling_resolver_single_call scalingDemo 2 1 (by decide)]
    show ([] : List (Nat × ℚ)) ++ [(2, (32767 : ℚ) / 1)] = [(2, (32767 : ℚ))]
    norm_num⟩

/-- C6: at every state reachable by operations on a constructed node, the
aggregate MTU is at most every channel's currently valid MTU property. -/
theorem aggregate_mtu_le_every_valid (n : Nat) (args : stream_args_t) (ctr : Nat)
    (ops : List Op) (i m : Nat)
    (hm : (runOps (init n args ctr) ops).getMtuProp i = some m) :
    (runOps (init n args ctr) ops).mtu ≤ m :=
  (runOps_WF_inv ops _ (init_WF n args ctr) (init_inv n args ctr)).2 i m hm

/-- C6 witness: a 2-channel node after `MTU[0] := 1000`; the resolver made
channel 1's property 1000 and the aggregate 1000 ≤ 1000. -/
theorem aggregate_mtu_le_every_valid_witness :
    (runOps (init 2 demoArgs 0) [Op.setMtu 0 1000]).getMtuProp 1 = some 1000 ∧
    (runOps (init 2 demoArgs 0) [Op.setMtu 0 1000]).mtu ≤ 1000 :=
  ⟨by decide, aggregate_mtu_le_every_valid 2 demoArgs 0 [Op.setMtu 0 1000] 1 1000 (by decide)⟩

/-- C7: on every reachable state, both forwarding policies are DROP and the
node reports zero input ports: it is structurally a terminal sink. -/
theorem terminal_sink_policies (n : Nat) (args : stream_args_t) (ctr : Nat)
    (ops : List Op) :
    (runOps (init n args ctr) ops).prop_fwd_policy = forwarding_policy_t.DROP ∧
    (runOps (init n args ctr) ops).action_fwd_policy = forwarding_policy_t.DROP ∧
    get_num_input_ports (runOps (init n args ctr) ops) = 0 := by
  have hf := runOps_frame ops (init n args ctr)
  refine ⟨?_, ?_, rfl⟩
  · rw [hf.2.2.2.1, init_eq_construct]
    exact (construct_policies n args ctr).1
  · rw [hf.2.2.2.2.1, init_eq_construct]
    exact (construct_policies n args ctr).2

/-- C8: `get_unique_id` returns the construction-time identifier (fixed
prefix, `#`, instance-counter value) after every sequence of operations. -/
theorem unique_id_constant (n : Nat) (args : stream_args_t) (ctr : Nat) (ops : List Op) :
    get_unique_id (runOps (init n args ctr) ops) = STREAMER_ID ++ "#" ++ toString ctr ∧
    get_unique_id (runOps (init n args ctr) ops) = get_unique_id (init n args ctr) := by
  have hf := runOps_frame ops (init n args ctr)
  have hinit : get_unique_id (init n args ctr) = STREAMER_ID ++ "#" ++ toString ctr := by
    rw [init_eq_construct]
    exact construct_unique_id n args ctr
  constructor
  · show (runOps (init n args ctr) ops).unique_id = _
    rw [hf.2.2.1]
    exact hinit
  · exact hf.2.2.1

/-- C9: immediately after construction, each channel's type property already
holds the wire format from the stream args, while scaling, sample rate,
tick rate and MTU have no value. -/
theorem initial_channel_properties (n : Nat) (args : stream_args_t) (ctr : Nat)
    (i : Nat) (hi : i < n) :
    (init n args ctr).getTypeProp i = some args.otw_format ∧
    (init n args ctr).getScalingProp i = none ∧
    (init n args ctr).getSampRateProp i = none ∧
    (init n args ctr).getTickRateProp i = none ∧
    (init n args ctr).getMtuProp i = none := by
  rw [init_eq_construct]
  exact ⟨getD_replicate_lt n i (some args.otw_format) none hi,
    getD_replicate n i none, getD_replicate n i none,
    getD_replicate n i none, getD_replicate n i none⟩

/-- C9 witness: channel 2 of a fresh 4-channel node. -/
theorem initial_channel_properties_witness :
    2 < 4 ∧
    ((init 4 demoArgs 0).getTypeProp 2 = some demoArgs.otw_format ∧
      (init 4 demoArgs 0).getScalingProp 2 = none ∧
      (init 4 demoArgs 0).getSampRateProp 2 = none ∧
      (init 4 demoArgs 0).getTickRateProp 2 = none ∧
      (init 4 demoArgs 0).getMtuProp 2 = none) :=
  ⟨by decide, initial_channel_properties 4 demoArgs 0 2 (by decide)⟩

/-- C10: `get_stream_args` returns the constructor's stream args after every
sequence of operations. -/
theorem stream_args_constant (n : Nat) (args : stream_args_t) (ctr : Nat)
    (ops : List Op) :
    get_stream_args (runOps (init n args ctr) ops) = args := by
  have hf := runOps_frame ops (init n args ctr)
  show (runOps (init n args ctr) ops).stream_args = args
  rw [hf.2.1, init_eq_construct]
  exact construct_stream_args n args ctr

end RfnocTx
